import Mathlib

set_option autoImplicit false

/-!
Verification development for the AstraBack deployment-orchestration backend.

The definitions below are shallow embeddings of the TypeScript sources:
`jobService` (in-memory job store), `logStreamService` (log fan-out bus),
`deploymentWorker` (phase orchestration), `streamService` (line framing of
child-process output), `manifestService.waitForEksNoInProgressUpdates`
(bounded EKS update poll) and `monitoringService.setupMonitoringAndGetUrl`.
JavaScript `Map`s are modelled as association lists with unique keys,
JavaScript `Set`s as duplicate-free lists in insertion order, wall-clock
reads (`new Date()` / `formatDateEs`) as explicit `now : String` arguments,
and external child processes as explicit environment records describing
their observable results.
-/

namespace AstraBack

/-! ## Association-list model of a JavaScript `Map` keyed by strings -/

/-- Value of `map.get(k)`: the entry stored under key `k`, if any. -/
def regLookup {β : Type} : List (String × β) → String → Option β
  | [], _ => none
  | p :: rest, k => if p.1 = k then some p.2 else regLookup rest k

/-- Test of `map.has(k)`. -/
def regHas {β : Type} : List (String × β) → String → Bool
  | [], _ => false
  | p :: rest, k => p.1 = k || regHas rest k

/-- Effect of `map.set(k, v)`: replace in place, or append a fresh entry
(a JavaScript `Map` keeps insertion order). -/
def regSet {β : Type} (reg : List (String × β)) (k : String) (v : β) :
    List (String × β) :=
  if regHas reg k then
    reg.map (fun p => if p.1 = k then (k, v) else p)
  else
    reg ++ [(k, v)]

/-- Effect of `map.delete(k)`. -/
def regDelete {β : Type} : List (String × β) → String → List (String × β)
  | [], _ => []
  | p :: rest, k => if p.1 = k then regDelete rest k else p :: regDelete rest k

theorem regHas_eq_isSome {β : Type} (reg : List (String × β)) (k : String) :
    regHas reg k = (regLookup reg k).isSome := by
  induction reg with
  | nil => rfl
  | cons p rest ih =>
      by_cases hp : p.1 = k <;> simp [regHas, regLookup, hp, ih]

theorem regLookup_map_set {β : Type} (reg : List (String × β)) (k : String)
    (v : β) (h : regHas reg k = true) :
    regLookup (reg.map (fun p => if p.1 = k then (k, v) else p)) k = some v := by
  induction reg with
  | nil => simp [regHas] at h
  | cons p rest ih =>
      by_cases hp : p.1 = k
      · simp [regLookup, hp]
      · have hrest : regHas rest k = true := by
          simpa [regHas, hp] using h
        simpa [regLookup, hp] using ih hrest

theorem regLookup_map_set_ne {β : Type} (reg : List (String × β))
    (k k' : String) (v : β) (h : k' ≠ k) :
    regLookup (reg.map (fun p => if p.1 = k then (k, v) else p)) k' =
      regLookup reg k' := by
  induction reg with
  | nil => rfl
  | cons p rest ih =>
      by_cases hp : p.1 = k
      · have hk : ¬ (k = k') := fun he => h he.symm
        have hp' : ¬ (p.1 = k') := by rw [hp]; exact hk
        simp [regLookup, hp, hk, hp', ih]
      · by_cases hpk : p.1 = k'
        · simp [regLookup, hp, hpk, h]
        · simp [regLookup, hp, hpk, ih]

theorem regLookup_regSet_self {β : Type} (reg : List (String × β))
    (k : String) (v : β) : regLookup (regSet reg k v) k = some v := by
  unfold regSet
  by_cases h : regHas reg k = true
  · simpa [h] using regLookup_map_set reg k v h
  · have hnone : regLookup reg k = none := by
      cases hc : regLookup reg k with
      | none => rfl
      | some w => exact absurd (by rw [regHas_eq_isSome, hc]; rfl) h
    simp only [h, if_false]
    induction reg with
    | nil => simp [regLookup]
    | cons p rest ih =>
        by_cases hp : p.1 = k
        · simp [regLookup, hp] at hnone
        · have hh : ¬ regHas rest k = true := by
            intro hr; exact h (by simp [regHas, hr])
          have hn : regLookup rest k = none := by
            simpa [regLookup, hp] using hnone
          have := ih hh hn
          simpa [regLookup, hp] using this

theorem regLookup_regSet_ne {β : Type} (reg : List (String × β))
    (k k' : String) (v : β) (h : k' ≠ k) :
    regLookup (regSet reg k v) k' = regLookup reg k' := by
  unfold regSet
  by_cases hh : regHas reg k = true
  · simpa [hh] using regLookup_map_set_ne reg k k' v h
  · simp only [hh, if_false]
    have hk : ¬ (k = k') := fun he => h he.symm
    induction reg with
    | nil => simp [regLookup, hk]
    | cons p rest ih =>
        by_cases hpk : p.1 = k'
        · simp [regLookup, hpk]
        · by_cases hr : regHas rest k = true
          · exact absurd (by simp [regHas, hr]) hh
          · simpa [regLookup, hpk] using ih hr

theorem regLookup_regDelete_self {β : Type} (reg : List (String × β))
    (k : String) : regLookup (regDelete reg k) k = none := by
  induction reg with
  | nil => rfl
  | cons p rest ih =>
      by_cases hp : p.1 = k <;> simp [regDelete, regLookup, hp, ih]

theorem regLookup_regDelete_ne {β : Type} (reg : List (String × β))
    (k k' : String) (h : k' ≠ k) :
    regLookup (regDelete reg k) k' = regLookup reg k' := by
  induction reg with
  | nil => rfl
  | cons p rest ih =>
      have hk : ¬ (k = k') := fun he => h he.symm
      by_cases hp : p.1 = k
      · simp [regDelete, regLookup, hp, hk, ih]
      · by_cases hpk : p.1 = k'
        · simp [regDelete, regLookup, hp, hpk, h]
        · simp [regDelete, regLookup, hp, hpk, ih]

theorem regHas_regDelete_self {β : Type} (reg : List (String × β))
    (k : String) : regHas (regDelete reg k) k = false := by
  rw [regHas_eq_isSome, regLookup_regDelete_self]
  rfl

/-! ## Data model (`src/types`, as used by `jobService.ts`) -/

/-- Job and phase status values (`JobStatus` in `src/types`). -/
inductive JobStatus where
  | PENDING
  | RUNNING
  | COMPLETED
  | FAILED
  | SKIPPED
deriving DecidableEq, Repr

/-- Severity levels of structured log entries. -/
inductive LogLevel where
  | info
  | warn
  | error
  | success
deriving DecidableEq, Repr

/-- Structured log entry (`LogMessage` in `src/types`): phase tag, level,
message, optional timestamp. -/
structure LogMessage where
  phase : String
  level : LogLevel
  message : String
  timestamp : Option String := none
deriving DecidableEq, Repr

/-- Temporary AWS credentials optionally supplied by the CLI in the request
(`awsCredentials` field). -/
structure CliCreds where
  accessKeyId : String
  secretAccessKey : String
  sessionToken : String
  expiration : Option String := none
deriving DecidableEq, Repr

/-- The immutable deploy/destroy request payload (fields of `DeployRequest`
relevant to the job store and worker). -/
structure DeployRequest where
  accountId : String
  region : String
  roleArn : String
  awsCredentials : Option CliCreds := none
deriving DecidableEq, Repr

/-- Fixed-shape per-phase status record (`phases` of a `Job`). -/
structure Phases where
  auth : JobStatus
  infrastructureSetup : JobStatus
  applicationDeploy : JobStatus
deriving DecidableEq, Repr

/-- The names of the three phase fields. -/
inductive PhaseName where
  | auth
  | infrastructureSetup
  | applicationDeploy
deriving DecidableEq, Repr

/-- Assignment `job.phases[phase] = status`. -/
def setPhaseField (p : Phases) (ph : PhaseName) (st : JobStatus) : Phases :=
  match ph with
  | .auth => { p with auth := st }
  | .infrastructureSetup => { p with infrastructureSetup := st }
  | .applicationDeploy => { p with applicationDeploy := st }

/-- Read of `job.phases[phase]`. -/
def getPhaseField (p : Phases) (ph : PhaseName) : JobStatus :=
  match ph with
  | .auth => p.auth
  | .infrastructureSetup => p.infrastructureSetup
  | .applicationDeploy => p.applicationDeploy

/-- Job record (`Job` in `src/types`). -/
structure Job where
  id : String
  status : JobStatus
  phases : Phases
  request : DeployRequest
  startTime : String
  endTime : Option String := none
  logs : List LogMessage
deriving DecidableEq, Repr

/-- The in-memory registry held by `JobService.jobs`. -/
abbrev Store := List (String × Job)

/-! ## Job store (`jobService.ts`)

Each mutating method reads the current wall clock through
`formatDateEs(new Date())`; that read is passed in as the `now` argument.
`addLog` and `addRawLog` additionally hand the entry to the log fan-out
bus (`logStreamService.publishLog` / `publishRaw`); the list of events so
published is returned alongside the new store. -/

/-- Embedding of `JobService.createJob`: insert a fresh PENDING job (the
generated `job-<uuid8>` identifier is passed in as `jobId`). -/
def createJob (store : Store) (jobId : String) (request : DeployRequest)
    (now : String) : Store × Job :=
  let job : Job :=
    { id := jobId
      status := .PENDING
      phases :=
        { auth := .PENDING
          infrastructureSetup := .PENDING
          applicationDeploy := .PENDING }
      request := request
      startTime := now
      endTime := none
      logs := [] }
  (regSet store jobId job, job)

/-- Embedding of `JobService.getJob`. -/
def getJob (store : Store) (jobId : String) : Option Job :=
  regLookup store jobId

/-- Embedding of `JobService.updateJobStatus`: unknown id is a logged
no-op; otherwise the status is assigned and, when the new status is
COMPLETED or FAILED, `endTime` is assigned the current time. -/
def updateJobStatus (store : Store) (jobId : String) (status : JobStatus)
    (now : String) : Store :=
  match regLookup store jobId with
  | none => store
  | some job =>
      let job := { job with status := status }
      let job :=
        if status = .COMPLETED ∨ status = .FAILED then
          { job with endTime := some now }
        else job
      regSet store jobId job

/-- Embedding of `JobService.updatePhaseStatus`: unknown id is a logged
no-op; otherwise one phase field is assigned. -/
def updatePhaseStatus (store : Store) (jobId : String) (phase : PhaseName)
    (status : JobStatus) : Store :=
  match regLookup store jobId with
  | none => store
  | some job =>
      regSet store jobId { job with phases := setPhaseField job.phases phase status }

/-- Timestamp defaulting in `JobService.addLog`: `if (!log.timestamp)`
(JavaScript truthiness: both a missing and an empty timestamp count as
absent) assign the current time. -/
def stampTimestamp (log : LogMessage) (now : String) : LogMessage :=
  if log.timestamp.getD "" = "" then { log with timestamp := some now } else log

/-- Embedding of `JobService.addLog`: unknown id is a logged no-op
publishing nothing; otherwise the entry gets a timestamp if absent, is
appended to `job.logs`, and the same entry is then published via
`logStreamService.publishLog`. The second component of the result lists
the entries published by the call, in publish order. -/
def addLog (store : Store) (jobId : String) (log : LogMessage)
    (now : String) : Store × List LogMessage :=
  match regLookup store jobId with
  | none => (store, [])
  | some job =>
      let log := stampTimestamp log now
      let job := { job with logs := job.logs ++ [log] }
      (regSet store jobId job, [log])

/-- Embedding of `JobService.addRawLog`: unknown id is a logged no-op;
otherwise the raw line is published via `logStreamService.publishRaw`
without being stored. -/
def addRawLog (store : Store) (jobId : String) (rawLine : String) :
    Store × List String :=
  match regLookup store jobId with
  | none => (store, [])
  | some _ => (store, [rawLine])

/-- Iterated `addLog`: the worker appends a sequence of entries one by
one; the published events of all calls are concatenated in call order. -/
def addLogs (store : Store) (jobId : String) (logs : List LogMessage)
    (now : String) : Store × List LogMessage :=
  logs.foldl
    (fun acc log =>
      let r := addLog acc.1 jobId log now
      (r.1, acc.2 ++ r.2))
    (store, [])

/-! ## Store lemmas -/

theorem addLogs_go (jobId : String) (now : String) :
    ∀ (entries : List LogMessage) (store : Store) (pubs : List LogMessage)
      (job0 : Job), regLookup store jobId = some job0 →
      (entries.foldl
        (fun acc log =>
          let r := addLog acc.1 jobId log now
          (r.1, acc.2 ++ r.2)) (store, pubs)) =
      ((entries.foldl
        (fun acc log =>
          let r := addLog acc.1 jobId log now
          (r.1, acc.2 ++ r.2)) (store, pubs)).1,
        pubs ++ entries.map (fun e => stampTimestamp e now)) ∧
      regLookup ((entries.foldl
        (fun acc log =>
          let r := addLog acc.1 jobId log now
          (r.1, acc.2 ++ r.2)) (store, pubs)).1) jobId =
        some { job0 with
                logs := job0.logs ++ entries.map (fun e => stampTimestamp e now) } := by
  intro entries
  induction entries with
  | nil =>
      intro store pubs job0 h
      refine ⟨by simp, ?_⟩
      simpa using h
  | cons e rest ih =>
      intro store pubs job0 h
      have hstep :
          addLog store jobId e now =
            (regSet store jobId
              { job0 with logs := job0.logs ++ [stampTimestamp e now] },
              [stampTimestamp e now]) := by
        simp [addLog, h]
      have hlook :
          regLookup (regSet store jobId
              { job0 with logs := job0.logs ++ [stampTimestamp e now] }) jobId =
            some { job0 with logs := job0.logs ++ [stampTimestamp e now] } :=
        regLookup_regSet_self _ _ _
      have := ih (regSet store jobId
          { job0 with logs := job0.logs ++ [stampTimestamp e now] })
        (pubs ++ [stampTimestamp e now])
        { job0 with logs := job0.logs ++ [stampTimestamp e now] } hlook
      constructor
      · calc
          (e :: rest).foldl
              (fun acc log =>
                let r := addLog acc.1 jobId log now
                (r.1, acc.2 ++ r.2)) (store, pubs)
            = rest.foldl
                (fun acc log =>
                  let r := addLog acc.1 jobId log now
                  (r.1, acc.2 ++ r.2))
                (regSet store jobId
                  { job0 with logs := job0.logs ++ [stampTimestamp e now] },
                  pubs ++ [stampTimestamp e now]) := by
              simp [hstep]
          _ = _ := by
              rw [this.1]
              simp [hstep]
      · have h2 := this.2
        calc
          regLookup ((e :: rest).foldl
              (fun acc log =>
                let r := addLog acc.1 jobId log now
                (r.1, acc.2 ++ r.2)) (store, pubs)).1 jobId
            = regLookup (rest.foldl
                (fun acc log =>
                  let r := addLog acc.1 jobId log now
                  (r.1, acc.2 ++ r.2))
                (regSet store jobId
                  { job0 with logs := job0.logs ++ [stampTimestamp e now] },
                  pubs ++ [stampTimestamp e now])).1 jobId := by
              simp [hstep]
          _ = some { job0 with
                logs := job0.logs ++
                  (e :: rest).map (fun x => stampTimestamp x now) } := by
              rw [h2]
              simp

/-- C3: for every known job id, a sequence of `addLog` calls stamps each
entry with a timestamp if one is absent, appends the stamped entries to the
stored `logs` history in call order, and publishes exactly those stamped
entries, in the same relative order — so every published entry is already
present, at the matching position, in the stored history. -/
theorem addLog_append_then_publish (store : Store) (jobId : String)
    (job0 : Job) (entries : List LogMessage) (now : String)
    (h : getJob store jobId = some job0) :
    getJob (addLogs store jobId entries now).1 jobId =
      some { job0 with
              logs := job0.logs ++ entries.map (fun e => stampTimestamp e now) } ∧
    (addLogs store jobId entries now).2 =
      entries.map (fun e => stampTimestamp e now) := by
  have h' : regLookup store jobId = some job0 := h
  have := addLogs_go jobId now entries store [] job0 h'
  refine ⟨this.2, ?_⟩
  have h1 := this.1
  unfold addLogs
  rw [h1]
  simp

/-- Concrete request used by the job-store witnesses. -/
def sampleRequest : DeployRequest :=
  { accountId := "123456789012", region := "eu-west-1",
    roleArn := "arn:aws:iam::123456789012:role/deploy" }

/-- Concrete job record used by the job-store witnesses. -/
def sampleJob : Job :=
  { id := "job-1", status := .RUNNING,
    phases := { auth := .RUNNING, infrastructureSetup := .PENDING,
                applicationDeploy := .PENDING },
    request := sampleRequest, startTime := "t0", endTime := none,
    logs := [{ phase := "auth", level := .info, message := "m0",
                timestamp := some "t0" }] }

/-- Witness for C3 at a concrete store: one entry without a timestamp and
one with, appended to a job that already holds a log entry. -/
theorem addLog_append_then_publish_witness :
    getJob (addLogs [("job-1", sampleJob)] "job-1"
        [{ phase := "auth", level := .info, message := "m1" },
          { phase := "auth", level := .success, message := "m2",
            timestamp := some "tX" }] "t1").1 "job-1" =
      some { sampleJob with
              logs := sampleJob.logs ++
                [{ phase := "auth", level := .info, message := "m1",
                    timestamp := some "t1" },
                  { phase := "auth", level := .success, message := "m2",
                    timestamp := some "tX" }] } ∧
    (addLogs [("job-1", sampleJob)] "job-1"
        [{ phase := "auth", level := .info, message := "m1" },
          { phase := "auth", level := .success, message := "m2",
            timestamp := some "tX" }] "t1").2 =
      [{ phase := "auth", level := .info, message := "m1",
          timestamp := some "t1" },
        { phase := "auth", level := .success, message := "m2",
          timestamp := some "tX" }] := by
  have := addLog_append_then_publish [("job-1", sampleJob)] "job-1" sampleJob
    [{ phase := "auth", level := .info, message := "m1" },
      { phase := "auth", level := .success, message := "m2",
        timestamp := some "tX" }] "t1" rfl
  exact ⟨by rw [this.1]; rfl, by rw [this.2]; rfl⟩

/-- C2, counterexample: `updateJobStatus` stamps `endTime` unconditionally
on every terminal-status call (there is no already-stamped guard in the
source), so a second FAILED call at a later wall-clock time overwrites the
`endTime` stamped by the first — the claimed write-once behaviour fails. -/
theorem updateJobStatus_restamps_endTime_counterexample :
    (getJob (updateJobStatus [("job-1", sampleJob)] "job-1" .FAILED "t1")
        "job-1").map Job.endTime = some (some "t1") ∧
    (getJob (updateJobStatus
        (updateJobStatus [("job-1", sampleJob)] "job-1" .FAILED "t1")
        "job-1" .FAILED "t2") "job-1").map Job.endTime = some (some "t2") ∧
    ("t2" : String) ≠ "t1" := by
  refine ⟨rfl, rfl, by decide⟩

/-- C2, amended: every call to `updateJobStatus` with a terminal status
(COMPLETED or FAILED) on a known job stamps `endTime` with the current
time; in particular the first terminal transition sets it, and any
subsequent terminal-status call overwrites it with the later time. -/
theorem updateJobStatus_terminal_stamps_now (store : Store) (jobId : String)
    (job : Job) (st : JobStatus) (now : String)
    (h : getJob store jobId = some job)
    (ht : st = .COMPLETED ∨ st = .FAILED) :
    getJob (updateJobStatus store jobId st now) jobId =
      some { job with status := st, endTime := some now } := by
  have h' : regLookup store jobId = some job := h
  unfold getJob updateJobStatus
  rw [h']
  simp only [if_pos ht]
  exact regLookup_regSet_self _ _ _

/-- Witness for the amended C2 at a concrete store. -/
theorem updateJobStatus_terminal_stamps_now_witness :
    getJob (updateJobStatus [("job-1", sampleJob)] "job-1" .FAILED "t1")
        "job-1" =
      some { sampleJob with status := .FAILED, endTime := some "t1" } :=
  updateJobStatus_terminal_stamps_now [("job-1", sampleJob)] "job-1"
    sampleJob .FAILED "t1" rfl (Or.inr rfl)

/-- C6: every job-store mutation called with an unknown job id — a status
update, a phase update, a structured log append or a raw line append —
returns with the store unchanged and publishes nothing (a logged no-op;
none of these operations can fail). -/
theorem store_mutations_unknown_id_noop (store : Store) (jobId : String)
    (st : JobStatus) (ph : PhaseName) (log : LogMessage) (raw : String)
    (now : String) (h : getJob store jobId = none) :
    updateJobStatus store jobId st now = store ∧
    updatePhaseStatus store jobId ph st = store ∧
    addLog store jobId log now = (store, []) ∧
    addRawLog store jobId raw = (store, []) := by
  have h' : regLookup store jobId = none := h
  refine ⟨?_, ?_, ?_, ?_⟩ <;>
    simp [updateJobStatus, updatePhaseStatus, addLog, addRawLog, h']

/-- Witness for C6: a store holding one job, mutated under a different id. -/
theorem store_mutations_unknown_id_noop_witness :
    updateJobStatus [("job-1", sampleJob)] "job-2" .FAILED "t1" =
      [("job-1", sampleJob)] ∧
    updatePhaseStatus [("job-1", sampleJob)] "job-2" .auth .FAILED =
      [("job-1", sampleJob)] ∧
    addLog [("job-1", sampleJob)] "job-2"
        { phase := "auth", level := .info, message := "m1" } "t1" =
      ([("job-1", sampleJob)], []) ∧
    addRawLog [("job-1", sampleJob)] "job-2" "raw line" =
      ([("job-1", sampleJob)], []) :=
  store_mutations_unknown_id_noop [("job-1", sampleJob)] "job-2" .FAILED
    .auth { phase := "auth", level := .info, message := "m1" } "raw line"
    "t1" rfl

/-! ## Log fan-out bus (`logStreamService.ts`)

Two registries map a job id to the `Set` of callbacks currently
subscribed: `subscribers` for structured entries, `rawSubscribers` for raw
lines.  A callback is identified by a number; its observable behaviour —
how it transforms an ambient state `σ` when invoked on an event, and
whether it then raises — is supplied as the map `behav` (a callback that
raises may have performed part of its effect first; both are captured by
`behav` returning the new state together with an optional raised error).
`publishLog` / `publishRaw` run inside `Except String`: an exception the
publisher itself fails to catch would surface as `.error`. -/

/-- A fan-out registry: job id to the list of subscribed callback ids, in
insertion order and without duplicates (a JavaScript `Set`). -/
abbrev SubRegistry : Type := List (String × List Nat)

/-- Behaviour of one callback invocation: from the callback id, the event
and the ambient state, the state after the invocation and the error it
raised, if any. -/
abbrev CbBehaviour (ε σ : Type) : Type := Nat → ε → σ → σ × Option String

/-- Embedding of `LogStreamService.publishLog`: look up the subscriber set
of the job, and when it is non-empty invoke every callback in order inside
`try { cb(logMessage) } catch (e) { console.error(..) }`; caught errors are
collected as console output. -/
def publishLog {σ : Type} (subscribers : SubRegistry)
    (behav : CbBehaviour LogMessage σ) (jobId : String)
    (logMessage : LogMessage) (s : σ) : Except String (σ × List String) :=
  match regLookup subscribers jobId with
  | none => .ok (s, [])
  | some callbacks =>
      if callbacks.length > 0 then
        callbacks.foldlM
          (fun acc cb =>
            match behav cb logMessage acc.1 with
            | (s', none) => Except.ok (s', acc.2)
            | (s', some e) =>
                Except.ok (s', acc.2 ++ ["Subscriber callback error: " ++ e]))
          (s, [])
      else .ok (s, [])

/-- Embedding of `LogStreamService.publishRaw`: same shape as `publishLog`
over the raw-subscriber registry. -/
def publishRaw {σ : Type} (rawSubscribers : SubRegistry)
    (behav : CbBehaviour String σ) (jobId : String) (rawLine : String)
    (s : σ) : Except String (σ × List String) :=
  match regLookup rawSubscribers jobId with
  | none => .ok (s, [])
  | some rawCallbacks =>
      if rawCallbacks.length > 0 then
        rawCallbacks.foldlM
          (fun acc cb =>
            match behav cb rawLine acc.1 with
            | (s', none) => Except.ok (s', acc.2)
            | (s', some e) =>
                Except.ok (s', acc.2 ++ ["Raw subscriber error: " ++ e]))
          (s, [])
      else .ok (s, [])

/-- Specification-side description of fault-isolated delivery: every
callback of the list is invoked in order — each one's state effect is
applied — and each raised error is caught and logged, never propagated. -/
def runAllCallbacks {ε σ : Type} (behav : CbBehaviour ε σ) (ev : ε)
    (caughtTag : String) (cbs : List Nat) (acc : σ × List String) :
    σ × List String :=
  cbs.foldl
    (fun acc cb =>
      match behav cb ev acc.1 with
      | (s', none) => (s', acc.2)
      | (s', some e) => (s', acc.2 ++ [caughtTag ++ e]))
    acc

theorem runAllCallbacks_fst {ε σ : Type} (behav : CbBehaviour ε σ) (ev : ε)
    (caughtTag : String) :
    ∀ (cbs : List Nat) (acc : σ × List String),
      (runAllCallbacks behav ev caughtTag cbs acc).1 =
        cbs.foldl (fun st cb => (behav cb ev st).1) acc.1 := by
  intro cbs
  induction cbs with
  | nil => intro acc; rfl
  | cons c rest ih =>
      intro acc
      rw [runAllCallbacks, List.foldl_cons, List.foldl_cons]
      cases hb : behav c ev acc.1 with
      | mk s' e? =>
          cases e? with
          | none => simpa [runAllCallbacks, hb] using ih (s', acc.2)
          | some e =>
              simpa [runAllCallbacks, hb] using
                ih (s', acc.2 ++ [caughtTag ++ e])

theorem foldlM_catch_ok {ε σ : Type} (behav : CbBehaviour ε σ) (ev : ε)
    (caughtTag : String) :
    ∀ (cbs : List Nat) (acc : σ × List String),
      (cbs.foldlM
          (fun acc cb =>
            match behav cb ev acc.1 with
            | (s', none) => Except.ok (s', acc.2)
            | (s', some e) => Except.ok (s', acc.2 ++ [caughtTag ++ e]))
          acc : Except String (σ × List String)) =
        Except.ok (runAllCallbacks behav ev caughtTag cbs acc) := by
  intro cbs
  induction cbs with
  | nil => intro acc; rfl
  | cons c rest ih =>
      intro acc
      cases hb : behav c ev acc.1 with
      | mk s' e? =>
          cases e? with
          | none =>
              rw [List.foldlM_cons]
              simp only [hb]
              rw [runAllCallbacks, List.foldl_cons]
              simp only [hb]
              exact ih (s', acc.2)
          | some e =>
              rw [List.foldlM_cons]
              simp only [hb]
              rw [runAllCallbacks, List.foldl_cons]
              simp only [hb]
              exact ih (s', acc.2 ++ [caughtTag ++ e])

/-- C4: publishing never throws and isolates per-callback faults — for any
registries, any callback behaviours (including ones that raise), any job
id and event, `publishLog` and `publishRaw` return `.ok`, having applied
the state effect of every registered callback for that id in registration
order (a raising callback does not prevent the remaining callbacks from
being invoked; its error is caught and logged). -/
theorem publish_isolates_callback_faults {σ : Type}
    (subscribers rawSubscribers : SubRegistry)
    (behavL : CbBehaviour LogMessage σ) (behavR : CbBehaviour String σ)
    (jobId : String) (logMessage : LogMessage) (rawLine : String) (s : σ) :
    publishLog subscribers behavL jobId logMessage s =
      Except.ok (runAllCallbacks behavL logMessage
        "Subscriber callback error: "
        ((regLookup subscribers jobId).getD []) (s, [])) ∧
    publishRaw rawSubscribers behavR jobId rawLine s =
      Except.ok (runAllCallbacks behavR rawLine "Raw subscriber error: "
        ((regLookup rawSubscribers jobId).getD []) (s, [])) ∧
    (runAllCallbacks behavL logMessage "Subscriber callback error: "
        ((regLookup subscribers jobId).getD []) (s, [])).1 =
      ((regLookup subscribers jobId).getD []).foldl
        (fun st cb => (behavL cb logMessage st).1) s ∧
    (runAllCallbacks behavR rawLine "Raw subscriber error: "
        ((regLookup rawSubscribers jobId).getD []) (s, [])).1 =
      ((regLookup rawSubscribers jobId).getD []).foldl
        (fun st cb => (behavR cb rawLine st).1) s := by
  refine ⟨?_, ?_, runAllCallbacks_fst _ _ _ _ _, runAllCallbacks_fst _ _ _ _ _⟩
  · unfold publishLog
    cases hl : regLookup subscribers jobId with
    | none => simp [hl, runAllCallbacks]
    | some callbacks =>
        cases callbacks with
        | nil => simp [runAllCallbacks]
        | cons c rest =>
            simpa [Nat.succ_pos] using
              foldlM_catch_ok behavL logMessage "Subscriber callback error: "
                (c :: rest) (s, [])
  · unfold publishRaw
    cases hl : regLookup rawSubscribers jobId with
    | none => simp [hl, runAllCallbacks]
    | some rawCallbacks =>
        cases rawCallbacks with
        | nil => simp [runAllCallbacks]
        | cons c rest =>
            simpa [Nat.succ_pos] using
              foldlM_catch_ok behavR rawLine "Raw subscriber error: "
                (c :: rest) (s, [])

/-- Embedding of `LogStreamService.subscribeToLogs`: create the per-id set
if absent, then `Set.add` the callback (a `Set` ignores a duplicate add and
keeps insertion order). -/
def subscribeToLogs (subscribers : SubRegistry) (jobId : String) (cb : Nat) :
    SubRegistry :=
  let subscribers :=
    if regHas subscribers jobId then subscribers
    else regSet subscribers jobId []
  match regLookup subscribers jobId with
  | some callbacks =>
      regSet subscribers jobId
        (if cb ∈ callbacks then callbacks else callbacks ++ [cb])
  | none => subscribers

/-- Embedding of the unsubscribe closure returned by `subscribeToLogs`:
look the per-id set up again at call time; if present, `Set.delete` this
callback and, when the set became empty, `Map.delete` the per-id entry. -/
def unsubscribeLogs (subscribers : SubRegistry) (jobId : String) (cb : Nat) :
    SubRegistry :=
  match regLookup subscribers jobId with
  | none => subscribers
  | some currentCallbacks =>
      let remaining := currentCallbacks.erase cb
      if remaining.isEmpty then regDelete subscribers jobId
      else regSet subscribers jobId remaining

/-- Embedding of `LogStreamService.subscribeToRaw` (same shape as
`subscribeToLogs`, over the raw registry). -/
def subscribeToRaw (rawSubscribers : SubRegistry) (jobId : String)
    (cb : Nat) : SubRegistry :=
  let rawSubscribers :=
    if regHas rawSubscribers jobId then rawSubscribers
    else regSet rawSubscribers jobId []
  match regLookup rawSubscribers jobId with
  | some rawCallbacks =>
      regSet rawSubscribers jobId
        (if cb ∈ rawCallbacks then rawCallbacks else rawCallbacks ++ [cb])
  | none => rawSubscribers

/-- Embedding of the unsubscribe closure returned by `subscribeToRaw`. -/
def unsubscribeRaw (rawSubscribers : SubRegistry) (jobId : String)
    (cb : Nat) : SubRegistry :=
  match regLookup rawSubscribers jobId with
  | none => rawSubscribers
  | some currentRawCallbacks =>
      let remaining := currentRawCallbacks.erase cb
      if remaining.isEmpty then regDelete rawSubscribers jobId
      else regSet rawSubscribers jobId remaining

theorem unsubscribeRaw_eq_unsubscribeLogs (reg : SubRegistry)
    (jobId : String) (cb : Nat) :
    unsubscribeRaw reg jobId cb = unsubscribeLogs reg jobId cb := rfl

theorem regHas_false_forall {β : Type} (reg : List (String × β)) (k : String)
    (h : regHas reg k = false) : ∀ p ∈ reg, p.1 ≠ k := by
  induction reg with
  | nil => intro p hp; cases hp
  | cons q rest ih =>
      intro p hp
      have h1 : ¬ (q.1 = k) := by
        intro hk
        simp [regHas, hk] at h
      have h2 : regHas rest k = false := by
        simp only [regHas, Bool.or_eq_false_iff] at h
        exact h.2
      rcases List.mem_cons.mp hp with hpq | hp'
      · rw [hpq]; exact h1
      · exact ih h2 p hp'

theorem regSet_regSet_same {β : Type} (reg : List (String × β)) (k : String)
    (v : β) : regSet (regSet reg k v) k v = regSet reg k v := by
  have hhas : regHas (regSet reg k v) k = true := by
    rw [regHas_eq_isSome, regLookup_regSet_self]
    rfl
  by_cases h : regHas reg k = true
  · have hinner : regSet reg k v =
        reg.map (fun p => if p.1 = k then (k, v) else p) := by
      unfold regSet; rw [h]; simp
    rw [hinner] at hhas
    rw [hinner]
    unfold regSet
    rw [hhas]
    simp only [if_true, List.map_map]
    apply List.map_congr_left
    intro p _
    by_cases hp : p.1 = k <;> simp [hp, Function.comp]
  · have hinner : regSet reg k v = reg ++ [(k, v)] := by
      unfold regSet; rw [if_neg h]
    rw [hinner] at hhas
    rw [hinner]
    unfold regSet
    rw [hhas]
    simp only [if_true, List.map_append]
    have hall := regHas_false_forall reg k (by simpa using h)
    have hmap : reg.map (fun p => if p.1 = k then (k, v) else p) = reg := by
      rw [show reg = reg.map id by simp]
      rw [List.map_map]
      apply List.map_congr_left
      intro p hp
      simp [hall p (by simpa using hp), Function.comp]
    simp [hmap]

theorem unsubscribeLogs_lookup_self (reg : SubRegistry) (jobId : String)
    (cb : Nat) (cbs : List Nat) (h : regLookup reg jobId = some cbs) :
    regLookup (unsubscribeLogs reg jobId cb) jobId =
      if (cbs.erase cb).isEmpty then none else some (cbs.erase cb) := by
  unfold unsubscribeLogs
  rw [h]
  by_cases he : (cbs.erase cb).isEmpty
  · simp [he, regLookup_regDelete_self]
  · simp [he, regLookup_regSet_self]

theorem unsubscribeLogs_lookup_other (reg : SubRegistry) (jobId : String)
    (cb : Nat) (j' : String) (hne : j' ≠ jobId) :
    regLookup (unsubscribeLogs reg jobId cb) j' = regLookup reg j' := by
  unfold unsubscribeLogs
  cases h : regLookup reg jobId with
  | none => rfl
  | some cbs =>
      by_cases he : (cbs.erase cb).isEmpty
      · simp [he, regLookup_regDelete_ne reg jobId j' hne]
      · simp [he, regLookup_regSet_ne reg jobId j' _ hne]

theorem unsubscribeLogs_idem (reg : SubRegistry) (jobId : String) (cb : Nat)
    (hwf : ∀ l : List Nat, regLookup reg jobId = some l → l.Nodup) :
    unsubscribeLogs (unsubscribeLogs reg jobId cb) jobId cb =
      unsubscribeLogs reg jobId cb := by
  cases h : regLookup reg jobId with
  | none =>
      have h1 : unsubscribeLogs reg jobId cb = reg := by
        unfold unsubscribeLogs; rw [h]
      rw [h1, h1]
  | some cbs =>
      have hnd : cbs.Nodup := hwf cbs h
      by_cases he : (cbs.erase cb).isEmpty
      · have h1 : unsubscribeLogs reg jobId cb = regDelete reg jobId := by
          unfold unsubscribeLogs; rw [h]; simp [he]
        rw [h1]
        unfold unsubscribeLogs
        rw [regLookup_regDelete_self]
      · have h1 : unsubscribeLogs reg jobId cb =
            regSet reg jobId (cbs.erase cb) := by
          unfold unsubscribeLogs; rw [h]; simp [he]
        rw [h1]
        unfold unsubscribeLogs
        rw [regLookup_regSet_self]
        have hnm : cb ∉ cbs.erase cb := hnd.not_mem_erase
        have herase : (cbs.erase cb).erase cb = cbs.erase cb :=
          List.erase_of_not_mem hnm
        simp only [herase, he, if_false]
        exact regSet_regSet_same reg jobId (cbs.erase cb)

/-- C5: the unsubscribe closures of `subscribeToLogs` and `subscribeToRaw`
remove exactly the callback they captured: the per-id set loses that
callback only (membership of every other callback is preserved) and is
deleted from the registry once it becomes empty; subscribers of other job
ids are untouched; and running the same closure a second time — or after
the callback was already removed — changes nothing and cannot fail. -/
theorem unsubscribe_exact_idempotent (subscribers rawSubscribers : SubRegistry)
    (jobId : String) (cb : Nat)
    (hwfL : ∀ l : List Nat, regLookup subscribers jobId = some l → l.Nodup)
    (hwfR : ∀ l : List Nat, regLookup rawSubscribers jobId = some l → l.Nodup) :
    (∀ cbs : List Nat, regLookup subscribers jobId = some cbs →
      regLookup (unsubscribeLogs subscribers jobId cb) jobId =
        (if (cbs.erase cb).isEmpty then none else some (cbs.erase cb)) ∧
      (∀ d : Nat, d ≠ cb →
        (d ∈ ((regLookup (unsubscribeLogs subscribers jobId cb) jobId).getD []) ↔
          d ∈ cbs))) ∧
    (regLookup subscribers jobId = none →
      unsubscribeLogs subscribers jobId cb = subscribers) ∧
    (∀ j' : String, j' ≠ jobId →
      regLookup (unsubscribeLogs subscribers jobId cb) j' =
        regLookup subscribers j') ∧
    unsubscribeLogs (unsubscribeLogs subscribers jobId cb) jobId cb =
      unsubscribeLogs subscribers jobId cb ∧
    (∀ cbs : List Nat, regLookup rawSubscribers jobId = some cbs →
      regLookup (unsubscribeRaw rawSubscribers jobId cb) jobId =
        (if (cbs.erase cb).isEmpty then none else some (cbs.erase cb))) ∧
    (∀ j' : String, j' ≠ jobId →
      regLookup (unsubscribeRaw rawSubscribers jobId cb) j' =
        regLookup rawSubscribers j') ∧
    unsubscribeRaw (unsubscribeRaw rawSubscribers jobId cb) jobId cb =
      unsubscribeRaw rawSubscribers jobId cb := by
  refine ⟨?_, ?_, ?_, ?_, ?_, ?_, ?_⟩
  · intro cbs h
    refine ⟨unsubscribeLogs_lookup_self _ _ _ _ h, ?_⟩
    intro d hd
    rw [unsubscribeLogs_lookup_self _ _ _ _ h]
    by_cases he : (cbs.erase cb).isEmpty
    · simp only [he, if_true, Option.getD_none]
      have hnd : cbs.Nodup := hwfL cbs h
      constructor
      · intro hmem; cases hmem
      · intro hmem
        have : d ∈ cbs.erase cb := (List.mem_erase_of_ne hd).mpr hmem
        rw [List.isEmpty_iff] at he
        rw [he] at this
        cases this
    · simp only [he, if_false, Option.getD_some]
      exact List.mem_erase_of_ne hd
  · intro h
    unfold unsubscribeLogs
    rw [h]
  · intro j' hne
    exact unsubscribeLogs_lookup_other _ _ _ _ hne
  · exact unsubscribeLogs_idem _ _ _ hwfL
  · intro cbs h
    rw [unsubscribeRaw_eq_unsubscribeLogs]
    exact unsubscribeLogs_lookup_self _ _ _ _ h
  · intro j' hne
    rw [unsubscribeRaw_eq_unsubscribeLogs]
    exact unsubscribeLogs_lookup_other _ _ _ _ hne
  · rw [unsubscribeRaw_eq_unsubscribeLogs, unsubscribeRaw_eq_unsubscribeLogs]
    exact unsubscribeLogs_idem _ _ _ hwfR

/-- Witness for C5 on concrete registries: two structured subscribers and
one raw subscriber; unsubscribing callback 1 keeps callback 2, and removes
the raw registry entry entirely. -/
theorem unsubscribe_exact_idempotent_witness :
    unsubscribeLogs [("job-1", [1, 2])] "job-1" 1 = [("job-1", [2])] ∧
    unsubscribeRaw [("job-1", [1])] "job-1" 1 = [] ∧
    unsubscribeLogs (unsubscribeLogs [("job-1", [1, 2])] "job-1" 1)
        "job-1" 1 = unsubscribeLogs [("job-1", [1, 2])] "job-1" 1 := by
  have h := unsubscribe_exact_idempotent [("job-1", [1, 2])] [("job-1", [1])]
    "job-1" 1
    (by intro l hl; simp [regLookup] at hl; rw [← hl]; decide)
    (by intro l hl; simp [regLookup] at hl; rw [← hl]; decide)
  exact ⟨by rfl, by rfl, h.2.2.2.1⟩

/-! ## Deployment worker (`deploymentWorker.ts`)

`executeDeployment` drives one job through the ordered phases
auth → infrastructureSetup → applicationDeploy.  External collaborators
(`awsService.assumeUserRole`, `awsService.ensureStateBucketExists`,
`runTerraformApply`, `kubectlApply`) are modelled by a `WorkerEnv` record
giving each call's observable result, with `.error` standing for a raised
exception (caught by the phase's `try`/`catch`).  The worker state carries
the job store, the worker's private per-job credential map and the trace
of structured entries published while running.  `getJobDuration`, called
only to build console traces, reads no state that the claims mention and
performs no mutation, so it is not modelled. -/

/-- Temporary STS credentials as held in `jobCredentials`. -/
structure StsCreds where
  AccessKeyId : String
  SecretAccessKey : String
  SessionToken : String
  Expiration : Option String := none
deriving DecidableEq, Repr

/-- Results of the worker's external calls. -/
structure WorkerEnv where
  assumeRole : Except Unit (Option StsCreds)
  ensureBucket : Except Unit Bool
  terraformApply : Except Unit Bool
  kubectlApply : Except Unit Bool

/-- Worker-visible state: the job store, the ephemeral per-job credential
map and the trace of published structured entries. -/
structure WState where
  store : Store
  jobCredentials : List (String × StsCreds)
  published : List LogMessage

/-- Worker call of `jobService.updateJobStatus`. -/
def wUpdateStatus (s : WState) (jobId : String) (st : JobStatus)
    (now : String) : WState :=
  { s with store := updateJobStatus s.store jobId st now }

/-- Worker call of `jobService.updatePhaseStatus`. -/
def wUpdatePhase (s : WState) (jobId : String) (ph : PhaseName)
    (st : JobStatus) : WState :=
  { s with store := updatePhaseStatus s.store jobId ph st }

/-- Worker call of `jobService.addLog` (the published entries are recorded
in the trace). -/
def wAddLog (s : WState) (jobId : String) (log : LogMessage) (now : String) :
    WState :=
  let r := addLog s.store jobId log now
  { s with store := r.1, published := s.published ++ r.2 }

/-- Embedding of `DeploymentWorker.setJobCredentials`. -/
def setJobCredentials (s : WState) (jobId : String) (c : StsCreds) : WState :=
  { s with jobCredentials := regSet s.jobCredentials jobId c }

/-- Embedding of `DeploymentWorker.getJobCredentials`. -/
def getJobCredentials (s : WState) (jobId : String) : Option StsCreds :=
  regLookup s.jobCredentials jobId

/-- Embedding of `DeploymentWorker.clearJobCredentials`. -/
def clearJobCredentials (s : WState) (jobId : String) : WState :=
  { s with jobCredentials := regDelete s.jobCredentials jobId }

/-- Conversion of CLI-supplied credentials to the stored STS shape. -/
def cliToSts (c : CliCreds) : StsCreds :=
  { AccessKeyId := c.accessKeyId, SecretAccessKey := c.secretAccessKey,
    SessionToken := c.sessionToken, Expiration := c.expiration }

/-- Fallback branch of the auth phase: `awsService.assumeUserRole` inside
the phase's `try`/`catch` (`.error` is the caught exception; `.ok none` is
a response with no `Credentials`). -/
def authAssumeRoleBranch (jobId : String) (env : WorkerEnv) (now : String)
    (s : WState) : WState × Bool :=
  match env.assumeRole with
  | .error _ =>
      let s := wAddLog s jobId
        { phase := "auth", level := .error,
          message := "Failed to assume IAM role" } now
      (wUpdatePhase s jobId .auth .FAILED, false)
  | .ok none =>
      let s := wAddLog s jobId
        { phase := "auth", level := .error,
          message :=
            "Failed to obtain credentials (no CLI creds and AssumeRole failed)" }
        now
      (wUpdatePhase s jobId .auth .FAILED, false)
  | .ok (some credentials) =>
      let s := wAddLog s jobId
        { phase := "auth", level := .success,
          message := "Assumed IAM role using backend configuration (dev fallback)" }
        now
      let s := setJobCredentials s jobId credentials
      (wUpdatePhase s jobId .auth .COMPLETED, true)

/-- Embedding of `DeploymentWorker.handleAuthPhase`. -/
def handleAuthPhase (jobId : String) (request : DeployRequest)
    (env : WorkerEnv) (now : String) (s : WState) : WState × Bool :=
  let s := wUpdatePhase s jobId .auth .RUNNING
  let s := wAddLog s jobId
    { phase := "auth", level := .info,
      message := "Preparing AWS credentials for role: " ++ request.roleArn }
    now
  match request.awsCredentials with
  | some c =>
      if c.accessKeyId ≠ "" ∧ c.secretAccessKey ≠ "" ∧ c.sessionToken ≠ "" then
        let s := wAddLog s jobId
          { phase := "auth", level := .success,
            message := "Using temporary AWS credentials provided by CLI" } now
        let s := setJobCredentials s jobId (cliToSts c)
        (wUpdatePhase s jobId .auth .COMPLETED, true)
      else authAssumeRoleBranch jobId env now s
  | none => authAssumeRoleBranch jobId env now s

/-- Embedding of `DeploymentWorker.handleInfrastructurePhase`. -/
def handleInfrastructurePhase (jobId : String) (env : WorkerEnv)
    (now : String) (s : WState) : WState × Bool :=
  let s := wUpdatePhase s jobId .infrastructureSetup .RUNNING
  let s := wAddLog s jobId
    { phase := "infrastructure", level := .info,
      message := "Checking existing infrastructure state..." } now
  match getJobCredentials s jobId with
  | none =>
      let s := wAddLog s jobId
        { phase := "infrastructure", level := .error,
          message := "No credentials available for infrastructure check" } now
      (wUpdatePhase s jobId .infrastructureSetup .FAILED, false)
  | some _ =>
      match env.ensureBucket with
      | .error _ =>
          let s := wAddLog s jobId
            { phase := "infrastructure", level := .error,
              message := "Infrastructure phase failed" } now
          (wUpdatePhase s jobId .infrastructureSetup .FAILED, false)
      | .ok false =>
          let s := wAddLog s jobId
            { phase := "infrastructure", level := .error,
              message := "Failed to ensure state bucket exists" } now
          (wUpdatePhase s jobId .infrastructureSetup .FAILED, false)
      | .ok true =>
          let s := wAddLog s jobId
            { phase := "infrastructure", level := .info,
              message := "Reconciling infrastructure with Terraform (plan/apply)..." }
            now
          match env.terraformApply with
          | .error _ =>
              let s := wAddLog s jobId
                { phase := "infrastructure", level := .error,
                  message := "Infrastructure phase failed" } now
              (wUpdatePhase s jobId .infrastructureSetup .FAILED, false)
          | .ok false =>
              (wUpdatePhase s jobId .infrastructureSetup .FAILED, false)
          | .ok true =>
              (wUpdatePhase s jobId .infrastructureSetup .COMPLETED, true)

/-- Embedding of `DeploymentWorker.handleApplicationDeploymentPhase`. -/
def handleApplicationDeploymentPhase (jobId : String) (env : WorkerEnv)
    (now : String) (s : WState) : WState × Bool :=
  let s := wUpdatePhase s jobId .applicationDeploy .RUNNING
  let s := wAddLog s jobId
    { phase := "deployment", level := .info,
      message := "Starting application deployment..." } now
  match getJobCredentials s jobId with
  | none =>
      let s := wAddLog s jobId
        { phase := "deployment", level := .error,
          message := "No credentials available for application deployment" } now
      (wUpdatePhase s jobId .applicationDeploy .FAILED, false)
  | some _ =>
      match env.kubectlApply with
      | .error _ =>
          let s := wAddLog s jobId
            { phase := "deployment", level := .error,
              message := "Application deployment failed" } now
          (wUpdatePhase s jobId .applicationDeploy .FAILED, false)
      | .ok false =>
          (wUpdatePhase s jobId .applicationDeploy .FAILED, false)
      | .ok true =>
          (wUpdatePhase s jobId .applicationDeploy .COMPLETED, true)

/-- Embedding of `DeploymentWorker.completeJob`. -/
def completeJob (jobId : String) (now : String) (s : WState) : WState :=
  let s := wAddLog s jobId
    { phase := "deployment", level := .success,
      message := "Deployment completed successfully" } now
  let s := wUpdateStatus s jobId .COMPLETED now
  clearJobCredentials s jobId

/-- Embedding of `DeploymentWorker.finishJobFailed`. -/
def finishJobFailed (jobId : String) (now : String) (s : WState) : WState :=
  let s := wAddLog s jobId
    { phase := "error", level := .error, message := "Deployment failed" } now
  let s := wUpdateStatus s jobId .FAILED now
  clearJobCredentials s jobId

/-- Embedding of `DeploymentWorker.executeDeployment`: status → RUNNING,
then the three phases in order; the first phase that reports failure makes
the worker finish the job FAILED and return without running (or touching)
any later phase. -/
def executeDeployment (jobId : String) (request : DeployRequest)
    (env : WorkerEnv) (now : String) (s : WState) : WState :=
  let s := wUpdateStatus s jobId .RUNNING now
  let r := handleAuthPhase jobId request env now s
  if r.2 then
    let r2 := handleInfrastructurePhase jobId env now r.1
    if r2.2 then
      let r3 := handleApplicationDeploymentPhase jobId env now r2.1
      if r3.2 then completeJob jobId now r3.1
      else finishJobFailed jobId now r3.1
    else finishJobFailed jobId now r2.1
  else finishJobFailed jobId now r.1

/-! ## Worker step lemmas -/

theorem lookup_wUpdatePhase (s : WState) (j : String) (ph : PhaseName)
    (st : JobStatus) :
    regLookup (wUpdatePhase s j ph st).store j =
      (regLookup s.store j).map
        (fun job => { job with phases := setPhaseField job.phases ph st }) := by
  unfold wUpdatePhase updatePhaseStatus
  cases h : regLookup s.store j with
  | none => simp [h]
  | some job => simp [h, regLookup_regSet_self]

theorem lookup_wAddLog (s : WState) (j : String) (log : LogMessage)
    (now : String) :
    regLookup (wAddLog s j log now).store j =
      (regLookup s.store j).map
        (fun job => { job with logs := job.logs ++ [stampTimestamp log now] }) := by
  unfold wAddLog addLog
  cases h : regLookup s.store j with
  | none => simp [h]
  | some job => simp [h, regLookup_regSet_self]

theorem lookup_wUpdateStatus (s : WState) (j : String) (st : JobStatus)
    (now : String) :
    regLookup (wUpdateStatus s j st now).store j =
      (regLookup s.store j).map
        (fun job =>
          if st = .COMPLETED ∨ st = .FAILED then
            { job with status := st, endTime := some now }
          else { job with status := st }) := by
  unfold wUpdateStatus updateJobStatus
  cases h : regLookup s.store j with
  | none => simp [h]
  | some job =>
      by_cases ht : st = JobStatus.COMPLETED ∨ st = JobStatus.FAILED <;>
        simp [h, ht, regLookup_regSet_self]

theorem creds_wUpdatePhase (s : WState) (j : String) (ph : PhaseName)
    (st : JobStatus) :
    (wUpdatePhase s j ph st).jobCredentials = s.jobCredentials := rfl

theorem creds_wAddLog (s : WState) (j : String) (log : LogMessage)
    (now : String) :
    (wAddLog s j log now).jobCredentials = s.jobCredentials := rfl

theorem store_setJobCredentials (s : WState) (j : String) (c : StsCreds) :
    (setJobCredentials s j c).store = s.store := rfl

theorem store_clearJobCredentials (s : WState) (j : String) :
    (clearJobCredentials s j).store = s.store := rfl

/-- Projection of the job fields that the abort-policy argument tracks. -/
def jobView (j : Job) :
    JobStatus × Option String × JobStatus × JobStatus × JobStatus :=
  (j.status, j.endTime, j.phases.infrastructureSetup,
    j.phases.applicationDeploy, j.phases.auth)

theorem handleAuthPhase_spec (jobId : String) (request : DeployRequest)
    (env : WorkerEnv) (now : String) (s : WState) (job0 : Job)
    (h : regLookup s.store jobId = some job0) :
    (regLookup (handleAuthPhase jobId request env now s).1.store jobId).map
        jobView =
      some (job0.status, job0.endTime, job0.phases.infrastructureSetup,
        job0.phases.applicationDeploy,
        if (handleAuthPhase jobId request env now s).2 then JobStatus.COMPLETED
        else JobStatus.FAILED) := by
  unfold handleAuthPhase authAssumeRoleBranch
  cases hc : request.awsCredentials with
  | some c =>
      by_cases hcc : c.accessKeyId ≠ "" ∧ c.secretAccessKey ≠ "" ∧
          c.sessionToken ≠ ""
      · simp [hcc, lookup_wUpdatePhase, lookup_wAddLog, setJobCredentials,
          h, setPhaseField, jobView]
      · cases ha : env.assumeRole with
        | error u =>
            simp [hcc, ha, lookup_wUpdatePhase, lookup_wAddLog, h,
              setPhaseField, jobView]
        | ok co =>
            cases co with
            | none =>
                simp [hcc, ha, lookup_wUpdatePhase, lookup_wAddLog, h,
                  setPhaseField, jobView]
            | some cr =>
                simp [hcc, ha, lookup_wUpdatePhase, lookup_wAddLog,
                  setJobCredentials, h, setPhaseField, jobView]
  | none =>
      cases ha : env.assumeRole with
      | error u =>
          simp [ha, lookup_wUpdatePhase, lookup_wAddLog, h, setPhaseField,
            jobView]
      | ok co =>
          cases co with
          | none =>
              simp [ha, lookup_wUpdatePhase, lookup_wAddLog, h,
                setPhaseField, jobView]
          | some cr =>
              simp [ha, lookup_wUpdatePhase, lookup_wAddLog,
                setJobCredentials, h, setPhaseField, jobView]

/-- Projection tracked through the infrastructure phase. -/
def jobViewInfra (j : Job) :
    JobStatus × Option String × JobStatus × JobStatus × JobStatus :=
  (j.status, j.endTime, j.phases.auth, j.phases.applicationDeploy,
    j.phases.infrastructureSetup)

theorem handleInfrastructurePhase_spec (jobId : String) (env : WorkerEnv)
    (now : String) (s : WState) (job0 : Job)
    (h : regLookup s.store jobId = some job0) :
    (regLookup (handleInfrastructurePhase jobId env now s).1.store
        jobId).map jobViewInfra =
      some (job0.status, job0.endTime, job0.phases.auth,
        job0.phases.applicationDeploy,
        if (handleInfrastructurePhase jobId env now s).2 then
          JobStatus.COMPLETED
        else JobStatus.FAILED) := by
  unfold handleInfrastructurePhase
  cases hcred : regLookup s.jobCredentials jobId with
  | none =>
      simp [getJobCredentials, creds_wAddLog, creds_wUpdatePhase, hcred,
        lookup_wUpdatePhase, lookup_wAddLog, h, setPhaseField, jobViewInfra]
  | some creds =>
      cases hb : env.ensureBucket with
      | error u =>
          simp [getJobCredentials, creds_wAddLog, creds_wUpdatePhase, hcred,
            hb, lookup_wUpdatePhase, lookup_wAddLog, h, setPhaseField,
            jobViewInfra]
      | ok b =>
          cases b with
          | false =>
              simp [getJobCredentials, creds_wAddLog, creds_wUpdatePhase,
                hcred, hb, lookup_wUpdatePhase, lookup_wAddLog, h,
                setPhaseField, jobViewInfra]
          | true =>
              cases htf : env.terraformApply with
              | error u =>
                  simp [getJobCredentials, creds_wAddLog, creds_wUpdatePhase,
                    hcred, hb, htf, lookup_wUpdatePhase, lookup_wAddLog, h,
                    setPhaseField, jobViewInfra]
              | ok tb =>
                  cases tb with
                  | false =>
                      simp [getJobCredentials, creds_wAddLog,
                        creds_wUpdatePhase, hcred, hb, htf,
                        lookup_wUpdatePhase, lookup_wAddLog, h, setPhaseField,
                        jobViewInfra]
                  | true =>
                      simp [getJobCredentials, creds_wAddLog,
                        creds_wUpdatePhase, hcred, hb, htf,
                        lookup_wUpdatePhase, lookup_wAddLog, h, setPhaseField,
                        jobViewInfra]

/-- Projection tracked through the application-deployment phase. -/
def jobViewApp (j : Job) :
    JobStatus × Option String × JobStatus × JobStatus × JobStatus :=
  (j.status, j.endTime, j.phases.auth, j.phases.infrastructureSetup,
    j.phases.applicationDeploy)

theorem handleApplicationDeploymentPhase_spec (jobId : String)
    (env : WorkerEnv) (now : String) (s : WState) (job0 : Job)
    (h : regLookup s.store jobId = some job0) :
    (regLookup (handleApplicationDeploymentPhase jobId env now s).1.store
        jobId).map jobViewApp =
      some (job0.status, job0.endTime, job0.phases.auth,
        job0.phases.infrastructureSetup,
        if (handleApplicationDeploymentPhase jobId env now s).2 then
          JobStatus.COMPLETED
        else JobStatus.FAILED) := by
  unfold handleApplicationDeploymentPhase
  cases hcred : regLookup s.jobCredentials jobId with
  | none =>
      simp [getJobCredentials, creds_wAddLog, creds_wUpdatePhase, hcred,
        lookup_wUpdatePhase, lookup_wAddLog, h, setPhaseField, jobViewApp]
  | some creds =>
      cases hk : env.kubectlApply with
      | error u =>
          simp [getJobCredentials, creds_wAddLog, creds_wUpdatePhase, hcred,
            hk, lookup_wUpdatePhase, lookup_wAddLog, h, setPhaseField,
            jobViewApp]
      | ok kb =>
          cases kb with
          | false =>
              simp [getJobCredentials, creds_wAddLog, creds_wUpdatePhase,
                hcred, hk, lookup_wUpdatePhase, lookup_wAddLog, h,
                setPhaseField, jobViewApp]
          | true =>
              simp [getJobCredentials, creds_wAddLog, creds_wUpdatePhase,
                hcred, hk, lookup_wUpdatePhase, lookup_wAddLog, h,
                setPhaseField, jobViewApp]

theorem finishJobFailed_spec (jobId : String) (now : String) (s : WState)
    (job0 : Job) (h : regLookup s.store jobId = some job0) :
    regLookup (finishJobFailed jobId now s).store jobId =
      some { job0 with
              logs := job0.logs ++
                [stampTimestamp
                  { phase := "error", level := .error,
                    message := "Deployment failed" } now]
              status := JobStatus.FAILED
              endTime := some now } := by
  unfold finishJobFailed
  rw [store_clearJobCredentials, lookup_wUpdateStatus, lookup_wAddLog, h]
  simp

theorem completeJob_spec (jobId : String) (now : String) (s : WState)
    (job0 : Job) (h : regLookup s.store jobId = some job0) :
    regLookup (completeJob jobId now s).store jobId =
      some { job0 with
              logs := job0.logs ++
                [stampTimestamp
                  { phase := "deployment", level := .success,
                    message := "Deployment completed successfully" } now]
              status := JobStatus.COMPLETED
              endTime := some now } := by
  unfold completeJob
  rw [store_clearJobCredentials, lookup_wUpdateStatus, lookup_wAddLog, h]
  simp

/-- C1: for every deploy job run by the orchestrator from an all-PENDING
phase record, if any phase ends FAILED then the job's status ends FAILED,
and no later phase in the order auth → infrastructureSetup →
applicationDeploy ever leaves PENDING: `executeDeployment` finishes the
job after the first failed phase without touching subsequent phase
fields. -/
theorem executeDeployment_abort_on_phase_failure (s : WState)
    (jobId : String) (request : DeployRequest) (env : WorkerEnv)
    (now : String) (job0 : Job)
    (h : regLookup s.store jobId = some job0)
    (hp : job0.phases =
      { auth := .PENDING, infrastructureSetup := .PENDING,
        applicationDeploy := .PENDING }) :
    ∀ jobF : Job,
      regLookup (executeDeployment jobId request env now s).store jobId =
        some jobF →
      (jobF.phases.auth = .FAILED →
        jobF.status = .FAILED ∧
        jobF.phases.infrastructureSetup = .PENDING ∧
        jobF.phases.applicationDeploy = .PENDING) ∧
      (jobF.phases.infrastructureSetup = .FAILED →
        jobF.status = .FAILED ∧ jobF.phases.applicationDeploy = .PENDING) ∧
      (jobF.phases.applicationDeploy = .FAILED →
        jobF.status = .FAILED) := by
  intro jobF hF
  have hs1 : regLookup (wUpdateStatus s jobId JobStatus.RUNNING now).store
      jobId = some { job0 with status := JobStatus.RUNNING } := by
    rw [lookup_wUpdateStatus, h]; simp
  have hauth := handleAuthPhase_spec jobId request env now
    (wUpdateStatus s jobId JobStatus.RUNNING now) _ hs1
  simp only [executeDeployment] at hF
  cases hl1eq : regLookup (handleAuthPhase jobId request env now
      (wUpdateStatus s jobId JobStatus.RUNNING now)).1.store jobId with
  | none => rw [hl1eq] at hauth; simp at hauth
  | some job1 =>
  rw [hl1eq] at hauth
  cases hr2 : (handleAuthPhase jobId request env now
      (wUpdateStatus s jobId JobStatus.RUNNING now)).2 with
  | false =>
      simp only [hr2, Bool.false_eq_true, if_false] at hF
      simp only [hr2, Bool.false_eq_true, if_false, Option.map_some] at hauth
      simp [jobView, hp, Prod.ext_iff] at hauth
      obtain ⟨h1s, h1e, h1i, h1a, h1auth⟩ := hauth
      rw [finishJobFailed_spec jobId now _ job1 hl1eq] at hF
      have hj : _ = jobF := Option.some.inj hF
      rw [← hj]
      refine ⟨fun _ => ⟨rfl, by simpa using h1i, by simpa using h1a⟩,
        fun hx => ?_, fun hx => ?_⟩
      · simp only [] at hx
        simp [h1i] at hx
      · simp only [] at hx
        simp [h1a] at hx
  | true =>
      simp only [hr2, if_true] at hF
      simp only [hr2, if_true, Option.map_some] at hauth
      simp [jobView, hp, Prod.ext_iff] at hauth
      obtain ⟨h1s, h1e, h1i, h1a, h1auth⟩ := hauth
      have hinfra := handleInfrastructurePhase_spec jobId env now
        (handleAuthPhase jobId request env now
          (wUpdateStatus s jobId JobStatus.RUNNING now)).1 job1 hl1eq
      cases hl2eq : regLookup (handleInfrastructurePhase jobId env now
          (handleAuthPhase jobId request env now
            (wUpdateStatus s jobId JobStatus.RUNNING now)).1).1.store
          jobId with
      | none => rw [hl2eq] at hinfra; simp at hinfra
      | some job2 =>
      rw [hl2eq] at hinfra
      cases hrI : (handleInfrastructurePhase jobId env now
          (handleAuthPhase jobId request env now
            (wUpdateStatus s jobId JobStatus.RUNNING now)).1).2 with
      | false =>
          simp only [hrI, Bool.false_eq_true, if_false] at hF
          simp only [hrI, Bool.false_eq_true, if_false, Option.map_some]
            at hinfra
          simp [jobViewInfra, h1auth, h1a, Prod.ext_iff] at hinfra
          obtain ⟨h2s, h2e, h2auth, h2a, h2i⟩ := hinfra
          rw [finishJobFailed_spec jobId now _ job2 hl2eq] at hF
          have hj : _ = jobF := Option.some.inj hF
          rw [← hj]
          refine ⟨fun hx => ?_, fun _ => ⟨rfl, by simpa using h2a⟩,
            fun hx => ?_⟩
          · simp only [] at hx
            simp [h2auth] at hx
          · simp only [] at hx
            simp [h2a] at hx
      | true =>
          simp only [hrI, if_true] at hF
          simp only [hrI, if_true, Option.map_some] at hinfra
          simp [jobViewInfra, h1auth, h1a, Prod.ext_iff] at hinfra
          obtain ⟨h2s, h2e, h2auth, h2a, h2i⟩ := hinfra
          have happ := handleApplicationDeploymentPhase_spec jobId env now
            (handleInfrastructurePhase jobId env now
              (handleAuthPhase jobId request env now
                (wUpdateStatus s jobId JobStatus.RUNNING now)).1).1 job2
            hl2eq
          cases hl3eq : regLookup (handleApplicationDeploymentPhase jobId
              env now (handleInfrastructurePhase jobId env now
                (handleAuthPhase jobId request env now
                  (wUpdateStatus s jobId JobStatus.RUNNING now)).1).1).1.store
              jobId with
          | none => rw [hl3eq] at happ; simp at happ
          | some job3 =>
          rw [hl3eq] at happ
          cases hrA : (handleApplicationDeploymentPhase jobId env now
              (handleInfrastructurePhase jobId env now
                (handleAuthPhase jobId request env now
                  (wUpdateStatus s jobId JobStatus.RUNNING now)).1).1).2 with
          | false =>
              simp only [hrA, Bool.false_eq_true, if_false] at hF
              simp only [hrA, Bool.false_eq_true, if_false, Option.map_some]
                at happ
              simp [jobViewApp, h2auth, h2i, Prod.ext_iff] at happ
              obtain ⟨h3s, h3e, h3auth, h3i, h3a⟩ := happ
              rw [finishJobFailed_spec jobId now _ job3 hl3eq] at hF
              have hj : _ = jobF := Option.some.inj hF
              rw [← hj]
              refine ⟨fun hx => ?_, fun hx => ?_, fun _ => rfl⟩
              · simp only [] at hx
                simp [h3auth] at hx
              · simp only [] at hx
                simp [h3i] at hx
          | true =>
              simp only [hrA, if_true] at hF
              simp only [hrA, if_true, Option.map_some] at happ
              simp [jobViewApp, h2auth, h2i, Prod.ext_iff] at happ
              obtain ⟨h3s, h3e, h3auth, h3i, h3a⟩ := happ
              rw [completeJob_spec jobId now _ job3 hl3eq] at hF
              have hj : _ = jobF := Option.some.inj hF
              rw [← hj]
              refine ⟨fun hx => ?_, fun hx => ?_, fun hx => ?_⟩
              · simp only [] at hx
                simp [h3auth] at hx
              · simp only [] at hx
                simp [h3i] at hx
              · simp only [] at hx
                simp [h3a] at hx

/-- Concrete request for the worker witness: no CLI credentials. -/
def c1Request : DeployRequest :=
  { accountId := "123456789012", region := "eu-west-1",
    roleArn := "arn:aws:iam::123456789012:role/deploy",
    awsCredentials := none }

/-- Concrete freshly created job for the worker witness. -/
def c1Job : Job :=
  { id := "job-9", status := .PENDING,
    phases := { auth := .PENDING, infrastructureSetup := .PENDING,
                applicationDeploy := .PENDING },
    request := c1Request, startTime := "t0", endTime := none, logs := [] }

/-- Concrete worker state for the worker witness. -/
def c1State : WState :=
  { store := [("job-9", c1Job)], jobCredentials := [], published := [] }

/-- Concrete environment for the worker witness: AssumeRole answers
without credentials, so the auth phase fails. -/
def c1Env : WorkerEnv :=
  { assumeRole := .ok none, ensureBucket := .ok true,
    terraformApply := .ok true, kubectlApply := .ok true }

/-- Witness for C1: with the auth phase failing, the job ends FAILED with
both later phases still PENDING. -/
theorem executeDeployment_abort_on_phase_failure_witness :
    regLookup c1State.store "job-9" = some c1Job ∧
    c1Job.phases =
      { auth := .PENDING, infrastructureSetup := .PENDING,
        applicationDeploy := .PENDING } ∧
    ((regLookup (executeDeployment "job-9" c1Request c1Env "t1"
          c1State).store "job-9").map
        (fun j => (j.status, j.phases.infrastructureSetup,
          j.phases.applicationDeploy)) =
      some (.FAILED, .PENDING, .PENDING)) := by
  refine ⟨rfl, rfl, ?_⟩
  cases hF : regLookup (executeDeployment "job-9" c1Request c1Env "t1"
      c1State).store "job-9" with
  | none => exact absurd hF (by decide)
  | some jobF =>
      have heval : (regLookup (executeDeployment "job-9" c1Request c1Env
          "t1" c1State).store "job-9").map (fun j => j.phases.auth) =
          some JobStatus.FAILED := by decide
      rw [hF] at heval
      simp only [Option.map_some', Option.some.injEq] at heval
      have hfacts := (executeDeployment_abort_on_phase_failure c1State
        "job-9" c1Request c1Env "t1" c1Job rfl rfl jobF hF).1 heval
      simp [hfacts.1, hfacts.2.1, hfacts.2.2]

/-! ## Process-output line framing (`streamService.ts`)

`streamRaw` reads a byte stream chunk by chunk into a buffer, emits one
message per complete newline-delimited line (passing each line through a
transformation — by default `cleanHostPaths` — and prepending the
caller-supplied source tag), and flushes a non-empty final fragment as its
own line at stream close.  Text is modelled as `List Char`; the chunks
delivered by the reader as a list of such texts.  The path-redaction
function `cleanHostPaths` depends on the process working directory and on
regular-expression replacement, so it enters the model as the abstract
per-line transformation `clean`; the theorem below holds for every such
transformation.  The returned list is the sequence of messages the
function forwards to `jobService.addRawLog`, in forwarding order. -/

/-- Splitting of a buffer into its complete newline-terminated lines (in
order, newlines stripped) and the trailing fragment after the last
newline. -/
def splitNl : List Char → List (List Char) × List Char
  | [] => ([], [])
  | c :: rest =>
      let r := splitNl rest
      if c = '\n' then ([] :: r.1, r.2)
      else
        match r.1 with
        | [] => ([], c :: r.2)
        | l :: ls => ((c :: l) :: ls, r.2)

/-- Message assembly: `prefix ? \x7bprefix\x7d \x7bout\x7d : out` (an
empty source tag is falsy and leaves the line untagged). -/
def mkRawMsg (pre out : List Char) : List Char :=
  if pre.isEmpty then out else pre ++ ' ' :: out

/-- Per-line transformation step: an `onLine` override returning a string
replaces the line (a void return keeps it); without an override the
default path-redaction `clean` is applied. -/
def applyLine (clean : List Char → List Char)
    (onLine : Option (List Char → Option (List Char)))
    (line : List Char) : List Char :=
  match onLine with
  | some f =>
      match f line with
      | some mapped => mapped
      | none => line
  | none => clean line

/-- One iteration of the `streamRaw` read loop: append the chunk to the
buffer, emit every complete line, keep the remainder buffered. -/
def streamRawChunk (clean : List Char → List Char)
    (onLine : Option (List Char → Option (List Char))) (pre : List Char)
    (acc : List (List Char) × List Char) (chunk : List Char) :
    List (List Char) × List Char :=
  let parts := splitNl (acc.2 ++ chunk)
  (acc.1 ++ parts.1.map (fun line => mkRawMsg pre (applyLine clean onLine line)),
    parts.2)

/-- Embedding of `streamRaw`: a missing stream is a no-op; otherwise the
chunks are consumed in order and a non-empty final buffer is flushed as
one last message. -/
def streamRaw (clean : List Char → List Char) (pre : List Char)
    (stream : Option (List (List Char)))
    (onLine : Option (List Char → Option (List Char))) :
    List (List Char) :=
  match stream with
  | none => []
  | some chunks =>
      let r := chunks.foldl (streamRawChunk clean onLine pre) ([], [])
      if r.2.isEmpty then r.1
      else r.1 ++ [mkRawMsg pre (applyLine clean onLine r.2)]

/-- Specification-side description from the spec text: one message per
complete newline-delimited line of the whole input, in input order, each
transformed and tagged, and a non-empty unterminated final fragment
flushed as its own line. -/
def streamRawSpec (clean : List Char → List Char) (pre : List Char)
    (chunks : List (List Char)) : List (List Char) :=
  let parts := splitNl chunks.flatten
  let msgs := parts.1.map (fun line => mkRawMsg pre (clean line))
  if parts.2.isEmpty then msgs else msgs ++ [mkRawMsg pre (clean parts.2)]

theorem splitNl_no_newline (l : List Char) (h : '\n' ∉ l) :
    splitNl l = ([], l) := by
  induction l with
  | nil => rfl
  | cons c rest ih =>
      have hc : ¬ (c = '\n') := fun he => h (by rw [he]; exact List.mem_cons_self _ _)
      have hrest : '\n' ∉ rest := fun hm => h (List.mem_cons_of_mem _ hm)
      simp [splitNl, hc, ih hrest]

theorem newline_not_mem_frag (l : List Char) : '\n' ∉ (splitNl l).2 := by
  induction l with
  | nil => simp [splitNl]
  | cons c rest ih =>
      by_cases hc : c = '\n'
      · simpa [splitNl, hc] using ih
      · cases hr : (splitNl rest).1 with
        | nil =>
            simp only [splitNl, hr, if_neg hc]
            intro hm
            rcases List.mem_cons.mp hm with he | hm'
            · exact hc he.symm
            · exact ih hm'
        | cons l0 ls =>
            simp only [splitNl, hr, if_neg hc]
            simpa [hr] using ih

/-- Lines contributed by the second half of a concatenation: the leading
fragment of the first half glues onto the first line found in the second
half. -/
def glueLines (fa : List Char) : List (List Char) → List (List Char)
  | [] => []
  | l :: ls => (fa ++ l) :: ls

/-- Trailing fragment of a concatenation. -/
def glueFrag (fa fb : List Char) (lb : List (List Char)) : List Char :=
  match lb with
  | [] => fa ++ fb
  | _ :: _ => fb

theorem splitNl_append (a b : List Char) :
    splitNl (a ++ b) =
      ((splitNl a).1 ++ glueLines (splitNl a).2 (splitNl b).1,
        glueFrag (splitNl a).2 (splitNl b).2 (splitNl b).1) := by
  induction a with
  | nil =>
      cases hb : (splitNl b).1 with
      | nil => simp [splitNl, glueLines, glueFrag, hb, Prod.ext_iff]
      | cons l ls => simp [splitNl, glueLines, glueFrag, hb, Prod.ext_iff]
  | cons c a' ih =>
      by_cases hc : c = '\n'
      · simp [splitNl, hc, ih]
      · cases hra : (splitNl a').1 with
        | nil =>
            cases hrb : (splitNl b).1 with
            | nil =>
                simp [splitNl, hc, ih, hra, hrb, glueLines, glueFrag]
            | cons lb lbs =>
                simp [splitNl, hc, ih, hra, hrb, glueLines, glueFrag]
        | cons la las =>
            simp [splitNl, hc, ih, hra, glueLines, glueFrag]

theorem foldl_streamRawChunk (clean : List Char → List Char)
    (pre : List Char) :
    ∀ (chunks : List (List Char)) (msgs0 : List (List Char))
      (buf0 : List Char), '\n' ∉ buf0 →
      chunks.foldl (streamRawChunk clean none pre) (msgs0, buf0) =
        (msgs0 ++ ((splitNl (buf0 ++ chunks.flatten)).1).map
          (fun l => mkRawMsg pre (clean l)),
          (splitNl (buf0 ++ chunks.flatten)).2) := by
  intro chunks
  induction chunks with
  | nil =>
      intro msgs0 buf0 h
      simp [splitNl_no_newline buf0 h]
  | cons ch rest ih =>
      intro msgs0 buf0 h
      rw [List.foldl_cons]
      have hfrag : '\n' ∉ (splitNl (buf0 ++ ch)).2 :=
        newline_not_mem_frag (buf0 ++ ch)
      have hstep : streamRawChunk clean none pre (msgs0, buf0) ch =
          (msgs0 ++ ((splitNl (buf0 ++ ch)).1).map
            (fun l => mkRawMsg pre (clean l)),
            (splitNl (buf0 ++ ch)).2) := by
        simp [streamRawChunk, applyLine]
      rw [hstep, ih _ _ hfrag]
      have hassoc : buf0 ++ (ch :: rest).flatten = (buf0 ++ ch) ++ rest.flatten := by
        simp
      rw [hassoc, splitNl_append (buf0 ++ ch) rest.flatten,
        splitNl_append ((splitNl (buf0 ++ ch)).2) rest.flatten,
        splitNl_no_newline _ hfrag]
      simp

/-- C7: for every input stream, `streamRaw` (with the default per-line
transformation) forwards exactly one message per complete
newline-delimited line, in input order, each line passed through the
transformation and tagged with the caller-supplied source tag, and a
non-empty final fragment with no terminating newline is flushed as its
own line at stream close — for every choice of the (environment-dependent)
path-redaction transformation. -/
theorem streamRaw_line_framing (clean : List Char → List Char)
    (pre : List Char) (chunks : List (List Char)) :
    streamRaw clean pre (some chunks) none = streamRawSpec clean pre chunks := by
  have hf := foldl_streamRawChunk clean pre chunks [] [] (by simp)
  unfold streamRaw streamRawSpec
  simp only [hf]
  simp [applyLine]

/-! ## Bounded EKS update poll (`manifestService.ts`)

`waitForEksNoInProgressUpdates` polls `aws eks list-updates` /
`describe-update` up to 20 times with a 30-second `Bun.sleep` between
attempts.  The external world is modelled per attempt: the exit code of
`list-updates`, the parsed `updateIds` (with `none` standing for a JSON
parse failure, caught and treated as an empty list), and each update's
parsed status (`none` for a parse failure, which the `catch` skips).  The
wall-clock sleep has no observable effect in the model; the attempt count
is the bounded-resource content of the claim. -/

/-- Observable result of one polling attempt. -/
structure EksObs where
  listExit : Nat
  updateIds : Option (List String)
  updateStatus : String → Option String

/-- One loop iteration of `waitForEksNoInProgressUpdates`: a failing
`list-updates` call, an empty id list, or no update in `InProgress` state
ends the wait successfully. -/
def eksAttemptDone (o : EksObs) : Bool :=
  if o.listExit ≠ 0 then true
  else
    let ids := o.updateIds.getD []
    if ids.isEmpty then true
    else !(ids.any fun i => o.updateStatus i == some "InProgress")

/-- The polling loop: `for (let i = 0; i < maxAttempts; i++)` with early
`return true`, returning `false` after the attempt cap. -/
def eksWaitLoop (world : Nat → EksObs) : Nat → Nat → Bool
  | 0, _ => false
  | fuel + 1, i =>
      if eksAttemptDone (world i) then true
      else eksWaitLoop world fuel (i + 1)

/-- Embedding of `waitForEksNoInProgressUpdates`: `maxAttempts = 20`. -/
def waitForEksNoInProgressUpdates (world : Nat → EksObs) : Bool :=
  eksWaitLoop world 20 0

theorem eksWaitLoop_iff (world : Nat → EksObs) :
    ∀ (fuel i : Nat),
      eksWaitLoop world fuel i = true ↔
        ∃ k, k < fuel ∧ eksAttemptDone (world (i + k)) = true := by
  intro fuel
  induction fuel with
  | zero => intro i; simp [eksWaitLoop]
  | succ f ih =>
      intro i
      rw [eksWaitLoop]
      by_cases hd : eksAttemptDone (world i) = true
      · simp only [hd, if_true, true_iff]
        exact ⟨0, Nat.succ_pos f, by simpa using hd⟩
      · simp only [hd, Bool.false_eq_true, if_false]
        rw [ih (i + 1)]
        constructor
        · rintro ⟨k, hk, hdk⟩
          exact ⟨k + 1, Nat.succ_lt_succ hk,
            by rwa [show i + (k + 1) = i + 1 + k by omega]⟩
        · rintro ⟨k, hk, hdk⟩
          cases k with
          | zero => exact absurd (by simpa using hdk) hd
          | succ k' =>
              exact ⟨k', Nat.lt_of_succ_lt_succ hk,
                by rwa [show i + 1 + k' = i + (k' + 1) by omega]⟩

/-- C8: the wait for in-progress external cluster updates is a bounded
poll — `waitForEksNoInProgressUpdates` performs at most 20 attempts,
returns `true` exactly when some attempt within the cap observes that no
update is `InProgress` (a failing listing or an empty id list also counts
as done), and returns `false` exactly when all 20 attempts still see an
in-progress update; it can never loop beyond the cap. -/
theorem waitForEks_bounded_poll (world : Nat → EksObs) :
    (waitForEksNoInProgressUpdates world = true ↔
      ∃ i, i < 20 ∧ eksAttemptDone (world i) = true) ∧
    (waitForEksNoInProgressUpdates world = false ↔
      ∀ i, i < 20 → eksAttemptDone (world i) = false) := by
  have hmain := eksWaitLoop_iff world 20 0
  simp only [Nat.zero_add] at hmain
  have h1 : waitForEksNoInProgressUpdates world = true ↔
      ∃ i, i < 20 ∧ eksAttemptDone (world i) = true := by
    rw [waitForEksNoInProgressUpdates]
    exact hmain
  refine ⟨h1, ?_⟩
  constructor
  · intro hf i hi
    cases hd : eksAttemptDone (world i) with
    | false => rfl
    | true =>
        have : waitForEksNoInProgressUpdates world = true :=
          h1.mpr ⟨i, hi, hd⟩
        rw [hf] at this
        cases this
  · intro hall
    cases hw : waitForEksNoInProgressUpdates world with
    | false => rfl
    | true =>
        rcases h1.mp hw with ⟨i, hi, hd⟩
        rw [hall i hi] at hd
        cases hd

/-! ## Shared-secret authentication (spec-modelled)

The HTTP surface in `src/index.ts` wires only the root route, and
`loadV1` in `src/apis/v1.ts` registers the versioned endpoints with no
authentication check; the middleware enforcing the static shared-secret
header (the `API_KEY` referenced by the README and deployment workflow)
is not part of the sources provided.  It is therefore modelled from the
spec below. -/

/-- Modelled from the spec: the shared-secret check is missing from the
provided sources; this follows the spec sentence "All endpoints other than
root require a static shared-secret header; missing header → 401,
mismatched → 403."  The result is the rejection status, or `none` when the
request may proceed. -/
def checkSharedSecret (apiKey : String) (path : String)
    (header : Option String) : Option Nat :=
  if path = "/" then none
  else
    match header with
    | none => some 401
    | some v => if v = apiKey then none else some 403

/-- Modelled from the spec: request handling applies the shared-secret
check before any endpoint processing; only a request that passes reaches
the route handler. -/
def handleRequest (apiKey : String) (path : String) (header : Option String)
    (route : String → Nat) : Nat :=
  match checkSharedSecret apiKey path header with
  | some status => status
  | none => route path

/-- C9: for every endpoint other than root, a request without the static
shared-secret header is answered 401 and a request with a mismatched
value is answered 403, in both cases before any other processing — the
response does not depend on the route handler. -/
theorem sharedSecret_auth_rejects (apiKey : String) (path : String)
    (hpath : path ≠ "/") :
    (∀ route : String → Nat,
      handleRequest apiKey path none route = 401) ∧
    (∀ (v : String) (route : String → Nat), v ≠ apiKey →
      handleRequest apiKey path (some v) route = 403) := by
  constructor
  · intro route
    simp [handleRequest, checkSharedSecret, hpath]
  · intro v route hv
    simp [handleRequest, checkSharedSecret, hpath, hv]

/-- Witness for C9 at a concrete path, key and route table. -/
theorem sharedSecret_auth_rejects_witness :
    handleRequest "k-secret" "/v1/deploy" none (fun _ => 202) = 401 ∧
    handleRequest "k-secret" "/v1/deploy" (some "wrong") (fun _ => 202) =
      403 := by
  have h := sharedSecret_auth_rejects "k-secret" "/v1/deploy" (by decide)
  exact ⟨h.1 (fun _ => 202), h.2 "wrong" (fun _ => 202) (by decide)⟩

/-! ## Monitoring setup (`monitoringService.ts`)

`setupMonitoringAndGetUrl` configures kubeconfig access, installs the
`kube-prometheus-stack` Helm release pinning `grafana.adminUser=admin` and
`grafana.adminPassword=admin`, best-effort resets the running Grafana
admin password to `admin` (its whole block is inside `try {...} catch {}`
and cannot alter control flow), resolves the Grafana LoadBalancer
endpoint and returns the dashboards URL with the fixed credentials.
External command results are modelled by `MonWorld`; `.error` carries the
message of the exception the function throws on that path. -/

/-- Observable outcomes of the external commands the success path of
`setupMonitoringAndGetUrl` depends on. -/
structure MonWorld where
  updateKubeconfigExit : Nat
  helmInstallExit : Nat
  getSvcExit : Nat
  ingressHost : Option String

/-- Result record of a successful monitoring setup. -/
structure MonResult where
  url : String
  username : String
  password : String
deriving DecidableEq, Repr

/-- The argv of the Helm install command issued by the monitoring setup
(from the source). -/
def helmInstallArgs : List String :=
  ["helm", "upgrade", "--install", "monitoring",
    "prometheus-community/kube-prometheus-stack",
    "-n", "monitoring", "--create-namespace", "--wait",
    "--set", "grafana.service.type=LoadBalancer",
    "--set", "grafana.adminUser=admin",
    "--set", "grafana.adminPassword=admin"]

/-- Embedding of `setupMonitoringAndGetUrl` (control-flow skeleton over
`MonWorld`; the best-effort repo-add, repo-update and password-reset
blocks swallow their errors and do not influence the result). -/
def setupMonitoringAndGetUrl (region clusterName jobId : String)
    (w : MonWorld) : Except String MonResult :=
  if w.updateKubeconfigExit ≠ 0 then .error "aws eks update-kubeconfig failed"
  else if w.helmInstallExit ≠ 0 then .error "helm upgrade --install failed"
  else if w.getSvcExit ≠ 0 then .error "failed to get grafana svc"
  else
    match w.ingressHost with
    | none => .error "grafana LoadBalancer not ready"
    | some host =>
        .ok { url := "http://" ++ host ++ "/dashboards",
              username := "admin", password := "admin" }

/-- C10: whenever `setupMonitoringAndGetUrl` returns successfully, the
returned credentials are the constants admin/admin, independent of the
request, job and cluster; the Helm install pins
`grafana.adminUser=admin` and `grafana.adminPassword=admin`. -/
theorem setupMonitoring_constant_credentials (region clusterName jobId :
    String) (w : MonWorld) (r : MonResult)
    (h : setupMonitoringAndGetUrl region clusterName jobId w = .ok r) :
    r.username = "admin" ∧ r.password = "admin" ∧
    "grafana.adminUser=admin" ∈ helmInstallArgs ∧
    "grafana.adminPassword=admin" ∈ helmInstallArgs := by
  refine ⟨?_, ?_, by decide, by decide⟩ <;>
  · unfold setupMonitoringAndGetUrl at h
    by_cases h1 : w.updateKubeconfigExit ≠ 0
    · simp [h1] at h
    · by_cases h2 : w.helmInstallExit ≠ 0
      · simp [h1, h2] at h
      · by_cases h3 : w.getSvcExit ≠ 0
        · simp [h1, h2, h3] at h
        · cases hh : w.ingressHost with
          | none => simp [h1, h2, h3, hh] at h
          | some host =>
              simp only [h1, h2, h3, hh, if_false, if_neg] at h
              cases h
              rfl

/-- Witness for C10 at a concrete successful world. -/
theorem setupMonitoring_constant_credentials_witness :
    setupMonitoringAndGetUrl "eu-west-1" "astra-cluster" "job-1"
        { updateKubeconfigExit := 0, helmInstallExit := 0, getSvcExit := 0,
          ingressHost := some "lb.example.org" } =
      .ok { url := "http://lb.example.org/dashboards", username := "admin",
            password := "admin" } ∧
    ({ url := "http://lb.example.org/dashboards", username := "admin",
        password := "admin" } : MonResult).username = "admin" ∧
    ({ url := "http://lb.example.org/dashboards", username := "admin",
        password := "admin" } : MonResult).password = "admin" := by
  have h := setupMonitoring_constant_credentials "eu-west-1" "astra-cluster"
    "job-1"
    { updateKubeconfigExit := 0, helmInstallExit := 0, getSvcExit := 0,
      ingressHost := some "lb.example.org" }
    { url := "http://lb.example.org/dashboards", username := "admin",
      password := "admin" } rfl
  exact ⟨rfl, h.1, h.2.1⟩

end AstraBack
